import Mathlib

/-!
Verification of the BTCMarkets client (src/BTCMarkets/client.py).

Shallow embedding: bytes are `List Nat` (each entry < 256), 64-bit machine
words are `Nat` reduced modulo 2 ^ 64, Python's `time.time()` becomes an
explicit `nowMillis : Nat` argument, and fallible operations return
`Except` / `Option`.  The cryptographic primitives the client calls
(`hashlib.sha512`, `hmac`, `base64.b64encode`, UTF-8 encoding) are
implemented concretely below, following their published definitions
(FIPS 180-4, RFC 2104, RFC 4648, RFC 3629).
-/

namespace BTCM

/-- 64-bit truncation: `n % 2 ^ 64`. -/
def w64 (n : Nat) : Nat := n % 18446744073709551616

/-- Addition modulo 2 ^ 64. -/
def add64 (a b : Nat) : Nat := w64 (a + b)

/-- Right rotation of a 64-bit word. -/
def rotr64 (k w : Nat) : Nat := w64 ((w >>> k) ||| (w <<< (64 - k)))

/-- Bitwise complement of a 64-bit word. -/
def not64 (w : Nat) : Nat := 18446744073709551615 - w

/-- SHA-512 big sigma 0. -/
def bsig0 (x : Nat) : Nat := (rotr64 28 x) ^^^ (rotr64 34 x) ^^^ (rotr64 39 x)

/-- SHA-512 big sigma 1. -/
def bsig1 (x : Nat) : Nat := (rotr64 14 x) ^^^ (rotr64 18 x) ^^^ (rotr64 41 x)

/-- SHA-512 small sigma 0. -/
def ssig0 (x : Nat) : Nat := (rotr64 1 x) ^^^ (rotr64 8 x) ^^^ (x >>> 7)

/-- SHA-512 small sigma 1. -/
def ssig1 (x : Nat) : Nat := (rotr64 19 x) ^^^ (rotr64 61 x) ^^^ (x >>> 6)

/-- SHA-512 choice function. -/
def ch (e f g : Nat) : Nat := (e &&& f) ^^^ ((not64 e) &&& g)

/-- SHA-512 majority function. -/
def maj (a b c : Nat) : Nat := (a &&& b) ^^^ (a &&& c) ^^^ (b &&& c)

/-- The 80 SHA-512 round constants (FIPS 180-4: fractional parts of the cube
roots of the first 80 primes). -/
def sha512K : List Nat := [
  4794697086780616226, 8158064640168781261, 13096744586834688815,
  16840607885511220156, 4131703408338449720, 6480981068601479193,
  10538285296894168987, 12329834152419229976, 15566598209576043074,
  1334009975649890238, 2608012711638119052, 6128411473006802146,
  8268148722764581231, 9286055187155687089, 11230858885718282805,
  13951009754708518548, 16472876342353939154, 17275323862435702243,
  1135362057144423861, 2597628984639134821, 3308224258029322869,
  5365058923640841347, 6679025012923562964, 8573033837759648693,
  10970295158949994411, 12119686244451234320, 12683024718118986047,
  13788192230050041572, 14330467153632333762, 15395433587784984357,
  489312712824947311, 1452737877330783856, 2861767655752347644,
  3322285676063803686, 5560940570517711597, 5996557281743188959,
  7280758554555802590, 8532644243296465576, 9350256976987008742,
  10552545826968843579, 11727347734174303076, 12113106623233404929,
  14000437183269869457, 14369950271660146224, 15101387698204529176,
  15463397548674623760, 17586052441742319658, 1182934255886127544,
  1847814050463011016, 2177327727835720531, 2830643537854262169,
  3796741975233480872, 4115178125766777443, 5681478168544905931,
  6601373596472566643, 7507060721942968483, 8399075790359081724,
  8693463985226723168, 9568029438360202098, 10144078919501101548,
  10430055236837252648, 11840083180663258601, 13761210420658862357,
  14299343276471374635, 14566680578165727644, 15097957966210449927,
  16922976911328602910, 17689382322260857208, 500013540394364858,
  748580250866718886, 1242879168328830382, 1977374033974150939,
  2944078676154940804, 3659926193048069267, 4368137639120453308,
  4836135668995329356, 5532061633213252278, 6448918945643986474,
  6902733635092675308, 7801388544844847127]

/-- SHA-512 initial hash value (fractional parts of the square roots of the
first 8 primes). -/
def sha512Init : List Nat := [
  7640891576956012808, 13503953896175478587, 4354685564936845355,
  11912009170470909681, 5840696475078001361, 11170449401992604703,
  2270897969802886507, 6620516959819538809]

/-- Big-endian assembly of 8 bytes into one 64-bit word; groups a byte list
into words. -/
def bytesToWords64 : List Nat → List Nat
  | b0 :: b1 :: b2 :: b3 :: b4 :: b5 :: b6 :: b7 :: rest =>
      (((((((b0 <<< 8 ||| b1) <<< 8 ||| b2) <<< 8 ||| b3) <<< 8 ||| b4)
        <<< 8 ||| b5) <<< 8 ||| b6) <<< 8 ||| b7) :: bytesToWords64 rest
  | _ => []

/-- Big-endian decomposition of a 64-bit word into 8 bytes. -/
def word64ToBytes (w : Nat) : List Nat :=
  [(w >>> 56) &&& 255, (w >>> 48) &&& 255, (w >>> 40) &&& 255, (w >>> 32) &&& 255,
   (w >>> 24) &&& 255, (w >>> 16) &&& 255, (w >>> 8) &&& 255, w &&& 255]

/-- 16-byte big-endian encoding of the message bit length. -/
def len128Bytes (n : Nat) : List Nat :=
  (List.range 16).map (fun i => (n >>> ((15 - i) * 8)) &&& 255)

/-- SHA-512 padding: append 0x80, zero bytes up to 112 mod 128, then the
128-bit big-endian bit length. -/
def sha512Pad (msg : List Nat) : List Nat :=
  let len := msg.length
  let k := (112 + 128 - ((len + 1) % 128)) % 128
  msg ++ [0x80] ++ List.replicate k 0 ++ len128Bytes (len * 8)

/-- Message-schedule expansion of a 16-word block to 80 words. -/
def sha512Schedule (w16 : List Nat) : List Nat :=
  (List.range 64).foldl
    (fun ws _ =>
      let n := ws.length
      ws ++ [w64 (ssig1 (ws.getD (n - 2) 0) + ws.getD (n - 7) 0 +
                  ssig0 (ws.getD (n - 15) 0) + ws.getD (n - 16) 0)])
    w16

/-- One SHA-512 compression-round step on the state [a,b,c,d,e,f,g,h]. -/
def sha512Round (ws : List Nat) (st : List Nat) (i : Nat) : List Nat :=
  match st with
  | [a, b, c, d, e, f, g, h] =>
      let t1 := w64 (h + bsig1 e + ch e f g + sha512K.getD i 0 + ws.getD i 0)
      let t2 := w64 (bsig0 a + maj a b c)
      [add64 t1 t2, a, b, c, add64 d t1, e, f, g]
  | st => st

/-- SHA-512 compression of one 128-byte block into the chaining state. -/
def sha512Compress (h : List Nat) (block : List Nat) : List Nat :=
  let ws := sha512Schedule (bytesToWords64 block)
  let fin := (List.range 80).foldl (sha512Round ws) h
  List.zipWith add64 h fin

/-- Split a byte list into 128-byte blocks. -/
def chunks128 (l : List Nat) : List (List Nat) :=
  if h : l = [] then []
  else (l.take 128) :: chunks128 (l.drop 128)
termination_by l.length
decreasing_by
  simp only [List.length_drop]
  have : 0 < l.length := List.length_pos.mpr h
  omega

/-- SHA-512 of a byte string (FIPS 180-4). -/
def sha512 (msg : List Nat) : List Nat :=
  ((chunks128 (sha512Pad msg)).foldl sha512Compress sha512Init).flatMap word64ToBytes

/-- HMAC-SHA512 (RFC 2104): block size 128 bytes, ipad 0x36, opad 0x5c. -/
def hmacSha512 (key msg : List Nat) : List Nat :=
  let k0 := if key.length > 128 then sha512 key else key
  let k := k0 ++ List.replicate (128 - k0.length) 0
  let ipadded := k.map (fun b => b ^^^ 0x36)
  let opadded := k.map (fun b => b ^^^ 0x5c)
  sha512 (opadded ++ sha512 (ipadded ++ msg))

/-- The base64 alphabet (RFC 4648). -/
def b64Char (n : Nat) : Char :=
  "ABCDEFGHIJKLMNOPQRSTUVWXYZabcdefghijklmnopqrstuvwxyz0123456789+/".toList.getD n 'A'

/-- Base64 encoding of a byte string with `=` padding (RFC 4648), as
produced by Python's `base64.b64encode`. -/
def base64Encode : List Nat → String
  | [] => ""
  | [a] =>
      String.mk [b64Char (a >>> 2), b64Char ((a &&& 3) <<< 4), '=', '=']
  | [a, b] =>
      String.mk [b64Char (a >>> 2), b64Char (((a &&& 3) <<< 4) ||| (b >>> 4)),
                 b64Char ((b &&& 15) <<< 2), '=']
  | a :: b :: c :: rest =>
      String.mk [b64Char (a >>> 2), b64Char (((a &&& 3) <<< 4) ||| (b >>> 4)),
                 b64Char (((b &&& 15) <<< 2) ||| (c >>> 6)), b64Char (c &&& 63)]
        ++ base64Encode rest

/-- UTF-8 encoding of one code point (RFC 3629). -/
def utf8EncodeChar (n : Nat) : List Nat :=
  if n < 0x80 then [n]
  else if n < 0x800 then
    [0xC0 ||| (n >>> 6), 0x80 ||| (n &&& 0x3F)]
  else if n < 0x10000 then
    [0xE0 ||| (n >>> 12), 0x80 ||| ((n >>> 6) &&& 0x3F), 0x80 ||| (n &&& 0x3F)]
  else
    [0xF0 ||| (n >>> 18), 0x80 ||| ((n >>> 12) &&& 0x3F),
     0x80 ||| ((n >>> 6) &&& 0x3F), 0x80 ||| (n &&& 0x3F)]

/-- UTF-8 encoding of a string, the model of Python's `str.encode("utf-8")`. -/
def utf8Encode (s : String) : List Nat :=
  (s.toList.map (fun c => utf8EncodeChar c.toNat)).flatten

/-- `signMessage(privateKey, message)` from client.py lines 32-36:
base64-encode the HMAC-SHA512 digest of the UTF-8 encoded message, keyed by
the raw private-key bytes, and decode the (ASCII) result as a string. -/
def signMessage (privateKey : List Nat) (message : String) : String :=
  base64Encode (hmacSha512 privateKey (utf8Encode message))

/-- `buildHeaders(method, apiKey, privateKey, path, data)` from client.py
lines 16-30.  Python reads the clock with `time.time() * 1000`; the shallow
embedding passes that instant in as `nowMillis`. -/
def buildHeaders (method apiKey : String) (privateKey : List Nat)
    (path : String) (data : Option String) (nowMillis : Nat) :
    List (String × String) :=
  let now := toString nowMillis
  let message := method ++ path ++ now
  let message := match data with
    | some d => message ++ d
    | none => message
  let signature := signMessage privateKey message
  [("Accept", "application/json"),
   ("Accept-Charset", "UTF-8"),
   ("Content-Type", "application/json"),
   ("BM-AUTH-APIKEY", apiKey),
   ("BM-AUTH-TIMESTAMP", now),
   ("BM-AUTH-SIGNATURE", signature)]

/-- A decoded Python/JSON value: the payloads this client passes around.
`int` covers JSON integers; `float` covers Python floats (these appear only
in normalized outputs, never in a request body of this client). -/
inductive JVal where
  | str (s : String)
  | int (n : Int)
  | float (q : ℚ)
  | bool (b : Bool)
  | null
  | arr (xs : List JVal)
  | obj (fields : List (String × JVal))

/-- Lowercase hex digit. -/
def hexLower (n : Nat) : Char := "0123456789abcdef".toList.getD n '0'

/-- Uppercase hex digit. -/
def hexUpper (n : Nat) : Char := "0123456789ABCDEF".toList.getD n '0'

/-- A `\uXXXX` escape as emitted by Python's json encoder. -/
def uEscape (n : Nat) : List Char :=
  ['\\', 'u', hexLower ((n >>> 12) &&& 15), hexLower ((n >>> 8) &&& 15),
   hexLower ((n >>> 4) &&& 15), hexLower (n &&& 15)]

/-- Escaping of one character inside a JSON string literal, following
Python's `json.dumps` with its default `ensure_ascii=True`: printable ASCII
passes through, `"` and `\` get backslash escapes, the usual control
shortcuts apply, and everything else becomes `\uXXXX` (surrogate pairs for
astral code points). -/
def pyJsonEscapeChar (c : Char) : List Char :=
  let n := c.toNat
  if n = 34 then ['\\', '"']
  else if n = 92 then ['\\', '\\']
  else if n = 8 then ['\\', 'b']
  else if n = 9 then ['\\', 't']
  else if n = 10 then ['\\', 'n']
  else if n = 12 then ['\\', 'f']
  else if n = 13 then ['\\', 'r']
  else if n < 32 || n > 126 then
    if n < 0x10000 then uEscape n
    else
      let m := n - 0x10000
      uEscape (0xD800 + (m >>> 10)) ++ uEscape (0xDC00 + (m &&& 0x3FF))
  else [c]

/-- A JSON string literal with quotes, as `json.dumps` renders one. -/
def pyJsonQuote (s : String) : String :=
  String.mk ('"' :: (s.toList.map pyJsonEscapeChar).flatten ++ ['"'])

/-- Decimal rendering of a Python float.  Python's shortest-repr float
formatting is not modelled exactly; no request body built by this client
ever contains a float (prices and amounts travel as strings), so this
branch of `jsonDumps` is never exercised by the code under verification. -/
def pyFloatRepr (q : ℚ) : String :=
  if q.den = 1 then toString q.num ++ ".0" else toString q

mutual

/-- `json.dumps` with Python's default separators `(", ", ": ")` and
`ensure_ascii=True`, as called at client.py lines 209, 556, 680, 704
and 1361. -/
def jsonDumps : JVal → String
  | .str s => pyJsonQuote s
  | .int n => toString n
  | .float q => pyFloatRepr q
  | .bool b => if b then "true" else "false"
  | .null => "null"
  | .arr xs => "[" ++ jsonDumpsList xs ++ "]"
  | .obj fs => "\x7b" ++ jsonDumpsFields fs ++ "\x7d"

/-- Comma-separated rendering of array elements. -/
def jsonDumpsList : List JVal → String
  | [] => ""
  | [x] => jsonDumps x
  | x :: xs => jsonDumps x ++ ", " ++ jsonDumpsList xs

/-- Comma-separated rendering of object members. -/
def jsonDumpsFields : List (String × JVal) → String
  | [] => ""
  | [kv] => pyJsonQuote kv.1 ++ ": " ++ jsonDumps kv.2
  | kv :: fs => pyJsonQuote kv.1 ++ ": " ++ jsonDumps kv.2 ++ ", " ++ jsonDumpsFields fs

end

/-- `urllib.parse.quote_plus`: letters, digits and `_.-~` pass through,
space becomes `+`, every other character is percent-encoded byte-wise
(uppercase hex) over its UTF-8 encoding. -/
def quotePlus (s : String) : String :=
  String.mk ((s.toList.map (fun c =>
    if c.isAlphanum || c = '_' || c = '.' || c = '-' || c = '~' then [c]
    else if c = ' ' then ['+']
    else (utf8EncodeChar c.toNat).flatMap
      (fun b => ['%', hexUpper (b >>> 4), hexUpper (b &&& 15)]))).flatten)

/-- `urllib.parse.urlencode` over a dict (insertion-ordered association
list); values are already rendered to strings, as the callers here pass
strings or stringified scalars. -/
def urlencode (qp : List (String × String)) : String :=
  String.intercalate "&" (qp.map (fun kv => quotePlus kv.1 ++ "=" ++ quotePlus kv.2))

/-- The fixed API host, client.py line 14. -/
def base_url : String := "https://api.btcmarkets.net"

/-- The observable request an HTTP call would issue: `signedPath` is the
path handed to `buildHeaders`, `url` the final request target after any
query string is appended, `sentBody` the bytes passed to `urlopen` for
POST/PUT. -/
structure HttpCall where
  method : String
  signedPath : String
  headers : List (String × String)
  url : String
  sentBody : Option (List Nat)

/-- Request construction of `makeHttpCall` (client.py lines 208-219): dump
the body if present, build the auth headers from the bare `path` argument,
then append the query string, and for POST/PUT transmit the UTF-8 bytes of
the dumped body. -/
def makeHttpCall (apiKey : String) (privateKey : List Nat) (nowMillis : Nat)
    (method path : String) (query_params : Option (List (String × String)))
    (data : Option JVal) : HttpCall :=
  let dataStr := data.map jsonDumps
  let headers := buildHeaders method apiKey privateKey path dataStr nowMillis
  let fullPath := match query_params with
    | some qp => path ++ "?" ++ urlencode qp
    | none => path
  { method := method
    signedPath := path
    headers := headers
    url := base_url ++ fullPath
    sentBody := if method == "POST" || method == "PUT"
                then dataStr.map utf8Encode else none }

/-- Outcome of a client method: an HTTP request is issued, an exception is
raised, or `None` is returned after printing. -/
inductive CallOutcome where
  | request (call : HttpCall)
  | raised (msg : String)
  | none_returned

/-- `handle_error` (client.py lines 155-178).  Note line 174 reassigns the
parameter to the fixed string before it is used; the translation keeps that
shadowing `let`. -/
def handle_error (exception_on_error : Bool) (msg : String) : CallOutcome :=
  let msg := "No market_ids provided"
  if exception_on_error then .raised msg else .none_returned

/-- The path string `tickers` builds (client.py line 315): the query string
is concatenated into the path itself. -/
def tickersPath (market_ids : List String) : String :=
  "/v3/markets/tickers?" ++ "marketId=" ++ String.intercalate "&marketId=" market_ids

/-- Request construction of `tickers` (client.py lines 309-316). -/
def tickers (exception_on_error : Bool) (apiKey : String) (privateKey : List Nat)
    (nowMillis : Nat) (market_ids : List String) : CallOutcome :=
  if market_ids.length = 0 then
    handle_error exception_on_error "tickers called with no market_ids provided"
  else
    .request (makeHttpCall apiKey privateKey nowMillis "GET" (tickersPath market_ids)
      none none)

/-- The path string `orderbooks` builds (client.py line 417). -/
def orderbooksPath (market_ids : List String) : String :=
  "/v3/markets/orderbooks?" ++ "marketId=" ++ String.intercalate "&marketId=" market_ids

/-- Request construction of `orderbooks` (client.py lines 415-418). -/
def orderbooks_request (apiKey : String) (privateKey : List Nat) (nowMillis : Nat)
    (market_ids : List String) : HttpCall :=
  makeHttpCall apiKey privateKey nowMillis "GET" (orderbooksPath market_ids) none none

/-- Validation and request construction of `place_order` (client.py lines
475-556): stop-type orders require a trigger price, `selfTrade` is
upper-cased and must be `P` or `A`, `None`-valued fields are dropped, and
the body is pre-serialized with `json.dumps` before being handed to
`makeHttpCall` (which serializes it a second time, as a JSON string). -/
def place_order (exception_on_error : Bool) (apiKey : String) (privateKey : List Nat)
    (nowMillis : Nat) (market_id price amount side order_type : String)
    (triggerPrice targetAmount : Option String) (timeInForce : String)
    (postOnly : Bool) (selfTrade : String) (client_order_id : Option String) :
    CallOutcome :=
  if (order_type == "Stop" || order_type == "Stop Limit" || order_type == "Take Profit")
      && triggerPrice.isNone then
    handle_error exception_on_error (order_type ++ " requires triggerPrice")
  else
    let selfTrade := selfTrade.toUpper
    if !(selfTrade == "P" || selfTrade == "A") then
      handle_error exception_on_error
        (selfTrade ++ " must be either \x27P\x27 (prevent) or \x27A\x27 (allow)")
    else
      let data : List (String × Option JVal) :=
        [("marketId", some (.str market_id)),
         ("price", some (.str price)),
         ("amount", some (.str amount)),
         ("type", some (.str order_type)),
         ("side", some (.str side)),
         ("selfTrade", some (.str selfTrade)),
         ("timeInForce", some (.str timeInForce)),
         ("postOnly", some (.bool postOnly)),
         ("triggerPrice", triggerPrice.map .str),
         ("targetAmount", targetAmount.map .str),
         ("clientOrderId", client_order_id.map .str)]
      let data := data.filterMap (fun kv => kv.2.map (fun v => (kv.1, v)))
      .request (makeHttpCall apiKey privateKey nowMillis "POST" "/v3/orders" none
        (some (.str (jsonDumps (.obj data)))))

/-! ## Response normalization -/

/-- Errors pandas raises during normalization: missing columns, unparseable
values, wrongly-typed values. -/
inductive PError where
  | keyError (missing : List String)
  | valueError (msg : String)
  | typeError (msg : String)

/-- True exactly on `Except.error`. -/
def exceptIsError : Except PError α → Bool
  | .error _ => true
  | .ok _ => false

/-- Python dict lookup over an insertion-ordered association list. -/
def alookup {α : Type} (k : String) : List (String × α) → Option α
  | [] => none
  | kv :: rest => if k = kv.1 then some kv.2 else alookup k rest

/-- Fail-fast traversal over `Option` (the first inconvertible element
aborts, like the exception it models). -/
def mapMO {α β : Type} (fn : α → Option β) : List α → Option (List β)
  | [] => some []
  | x :: xs => do
      let y ← fn x
      let ys ← mapMO fn xs
      pure (y :: ys)

/-- Fail-fast traversal over `Except` (the first raising element aborts). -/
def mapME {α β : Type} (fn : α → Except PError β) : List α → Except PError (List β)
  | [] => .ok []
  | x :: xs => do
      let y ← fn x
      let ys ← mapME fn xs
      pure (y :: ys)

/-- Decimal digit test. -/
def isDigitCh (c : Char) : Bool := 48 ≤ c.toNat && c.toNat ≤ 57

/-- Value of a digit string. -/
def digitsVal (cs : List Char) : Nat := cs.foldl (fun a c => a * 10 + (c.toNat - 48)) 0

/-- Parse a decimal literal (optional sign, integer and fraction parts,
optional exponent) to an exact rational: the value-level model of Python's
`float(...)` and of `pd.to_numeric` string parsing.  Returns `none` when the
string is not a number (special forms like `inf`/`nan` and surrounding
whitespace are not modelled; no response field of this API uses them). -/
def parseFloatQ (s : String) : Option ℚ :=
  let cs := s.toList
  let signed : Bool × List Char :=
    match cs with
    | '-' :: r => (true, r)
    | '+' :: r => (false, r)
    | r => (false, r)
  let neg := signed.1
  let cs := signed.2
  let ip := cs.takeWhile isDigitCh
  let cs1 := cs.dropWhile isDigitCh
  let fracRest : List Char × List Char :=
    match cs1 with
    | '.' :: r => (r.takeWhile isDigitCh, r.dropWhile isDigitCh)
    | r => ([], r)
  let fp := fracRest.1
  let cs2 := fracRest.2
  if ip.isEmpty && fp.isEmpty then none
  else
    let mag : ℚ := (digitsVal ip : ℚ) + (digitsVal fp : ℚ) / ((10 : ℚ) ^ fp.length)
    let base : ℚ := if neg then -mag else mag
    match cs2 with
    | [] => some base
    | e :: r =>
        if e = 'e' || e = 'E' then
          let esigned : Bool × List Char :=
            match r with
            | '-' :: r2 => (true, r2)
            | '+' :: r2 => (false, r2)
            | r2 => (false, r2)
          let ed := esigned.2
          if ed.isEmpty || !(ed.all isDigitCh) then none
          else some (if esigned.1 then base / ((10 : ℚ) ^ digitsVal ed)
                     else base * ((10 : ℚ) ^ digitsVal ed))
        else none

/-- A parsed calendar timestamp (what `pd.to_datetime` yields on the ISO
strings this API serves). -/
structure Timestamp where
  year : Nat
  month : Nat
  day : Nat
  hour : Nat
  minute : Nat
  second : Nat
  micro : Nat
deriving DecidableEq

/-- A temporal value: a parsed calendar timestamp, or an epoch offset (how
`pd.to_datetime` reads bare numbers; never produced from this API's
responses). -/
inductive TimeVal where
  | cal (t : Timestamp)
  | epoch (q : ℚ)
deriving DecidableEq

/-- Four digit chars to a number, validating digit-hood. -/
def digits4 (a b c d : Char) : Option Nat :=
  if isDigitCh a && isDigitCh b && isDigitCh c && isDigitCh d then
    some (digitsVal [a, b, c, d])
  else none

/-- Two digit chars to a number, validating digit-hood. -/
def digits2 (a b : Char) : Option Nat :=
  if isDigitCh a && isDigitCh b then some (digitsVal [a, b]) else none

/-- Time-of-day part of the ISO parse: `HH:MM:SS`, optional fractional
seconds, optional trailing `Z`. -/
def parseIsoTime (cs : List Char) : Option (Nat × Nat × Nat × Nat) :=
  match cs with
  | h1 :: h2 :: ':' :: m1 :: m2 :: ':' :: s1 :: s2 :: rest => do
      let hh ← digits2 h1 h2
      let mm ← digits2 m1 m2
      let ss ← digits2 s1 s2
      let us ← match rest with
        | [] => some 0
        | ['Z'] => some 0
        | '.' :: fr =>
            let fd := fr.takeWhile isDigitCh
            let tail := fr.dropWhile isDigitCh
            if fd.isEmpty || !(tail = [] || tail = ['Z']) then none
            else some (digitsVal (fd.take 6))
        | _ => none
      if hh < 24 && mm < 60 && ss < 60 then some (hh, mm, ss, us) else none
  | _ => none

/-- ISO-8601 parse: `YYYY-MM-DD`, optionally followed by `T` and a time of
day.  This models the subset of `pd.to_datetime` input formats this
exchange emits; genuinely non-temporal strings parse to `none`. -/
def parseIso (s : String) : Option Timestamp :=
  match s.toList with
  | y1 :: y2 :: y3 :: y4 :: '-' :: m1 :: m2 :: '-' :: d1 :: d2 :: rest => do
      let y ← digits4 y1 y2 y3 y4
      let mo ← digits2 m1 m2
      let d ← digits2 d1 d2
      if !(1 ≤ mo && mo ≤ 12 && 1 ≤ d && d ≤ 31) then none
      else match rest with
        | [] => some ⟨y, mo, d, 0, 0, 0, 0⟩
        | 'T' :: tr => do
            let t ← parseIsoTime tr
            some ⟨y, mo, d, t.1, t.2.1, t.2.2.1, t.2.2.2⟩
        | _ => none
  | _ => none

/-- One cell of a pandas container: the scalar a decoded JSON leaf becomes,
`nan` for missing values, `time` after temporal coercion, `nested` for
structured values stored as objects. -/
inductive Cell where
  | str (s : String)
  | int (n : Int)
  | float (q : ℚ)
  | bool (b : Bool)
  | nan
  | time (t : TimeVal)
  | nested (v : JVal)

/-- How a decoded JSON value enters a pandas container (`None` becomes a
missing value in the coercion paths below). -/
def cellOfJVal : JVal → Cell
  | .str s => .str s
  | .int n => .int n
  | .float q => .float q
  | .bool b => .bool b
  | .null => .nan
  | .arr xs => .nested (.arr xs)
  | .obj fs => .nested (.obj fs)

/-- `pd.to_numeric` on one element (default `errors="raise"`): numbers and
missing values pass through, strings must parse as decimal literals,
anything structured raises. -/
def to_numeric_cell : Cell → Except PError Cell
  | .int n => .ok (.int n)
  | .float q => .ok (.float q)
  | .bool b => .ok (.bool b)
  | .nan => .ok .nan
  | .str s =>
      match parseFloatQ s with
      | some q => .ok (.float q)
      | none => .error (.valueError ("Unable to parse string \x22" ++ s ++ "\x22"))
  | .time _ => .error (.typeError "datetime values are not numeric-coercible")
  | .nested _ => .error (.typeError "Invalid object type")

/-- `pd.to_datetime` on one element (default `errors="raise"`): ISO strings
parse to timestamps, bare numbers are epoch offsets, missing values pass
through, anything else raises. -/
def to_datetime_cell : Cell → Except PError Cell
  | .str s =>
      match parseIso s with
      | some t => .ok (.time (.cal t))
      | none => .error (.valueError ("Unknown datetime string format: " ++ s))
  | .int n => .ok (.time (.epoch n))
  | .float q => .ok (.time (.epoch q))
  | .nan => .ok .nan
  | .time t => .ok (.time t)
  | .bool _ => .error (.typeError "bool is not convertible to datetime")
  | .nested _ => .error (.typeError "object is not convertible to datetime")

/-- A DataFrame, column-major: column names in order with their cells. -/
def DF := List (String × List Cell)

/-- Column names of a frame. -/
def dfColNames (df : DF) : List String := df.map Prod.fst

/-- First-occurrence deduplication, preserving first-appearance order. -/
def firstDedup : List String → List String
  | [] => []
  | x :: xs => x :: (firstDedup xs).filter (fun y => y != x)

/-- Keys of a record list in first-appearance order: the column set
`pd.DataFrame(list_of_dicts)` produces. -/
def keyUnion (recs : List (List (String × JVal))) : List String :=
  firstDedup (recs.flatMap (fun r => r.map Prod.fst))

/-- The column a key yields over a record list; records missing the key
contribute a missing value. -/
def colOf (recs : List (List (String × JVal))) (name : String) : List Cell :=
  recs.map (fun r =>
    match alookup name r with
    | some v => cellOfJVal v
    | none => Cell.nan)

/-- `pd.DataFrame(list_of_dicts)`. -/
def dfOfRecords (recs : List (List (String × JVal))) : DF :=
  (keyUnion recs).map (fun n => (n, colOf recs n))

/-- `df[names]`: list-of-labels column selection; any missing label is a
`KeyError`, exactly as pandas raises before `apply` ever runs. -/
def selectCols (df : DF) (ns : List String) : Except PError (List (List Cell)) :=
  if ns.all (fun n => (dfColNames df).contains n) then
    .ok (ns.map (fun n => (alookup n df).getD []))
  else
    .error (.keyError (ns.filter (fun n => !(dfColNames df).contains n)))

/-- Columnwise conversion, first failure raising. -/
def convertCol (conv : Cell → Except PError Cell) (col : List Cell) :
    Except PError (List Cell) :=
  mapME conv col

/-- `df[names] = converted`: replace the named columns. -/
def setCols (df : DF) (ns : List String) (newCols : List (List Cell)) : DF :=
  let assoc := ns.zip newCols
  df.map (fun c =>
    match alookup c.1 assoc with
    | some col => (c.1, col)
    | none => c)

/-- One coercion pass of `process_panda`:
`panda[fields] = panda[fields].apply(conv)` when a field list is given. -/
def applyConv (df : DF) (ns : Option (List String))
    (conv : Cell → Except PError Cell) : Except PError DF :=
  match ns with
  | none => .ok df
  | some ns => do
      let cols ← selectCols df ns
      let newCols ← mapME (convertCol conv) cols
      pure (setCols df ns newCols)

/-- `process_panda` (client.py lines 38-44) on a DataFrame: numeric
coercion first, then temporal. -/
def process_panda (df : DF) (numeric time : Option (List String)) :
    Except PError DF := do
  let df ← applyConv df numeric to_numeric_cell
  applyConv df time to_datetime_cell

/-- Result of `make_df`: either the raw value passed through (error
envelopes) or a typed table. -/
inductive DfResult where
  | raw (v : JVal)
  | table (df : DF)

/-- Interpret array elements as records; the callers of `make_df` only
receive arrays of objects from the API. -/
def recsAsObjs (xs : List JVal) : Option (List (List (String × JVal))) :=
  mapMO (fun x =>
    match x with
    | .obj fs => some fs
    | _ => none) xs

/-- `make_df` (client.py lines 48-72): a dict carrying the `statusCode`
error marker is returned unmodified; otherwise the data becomes a frame
and is coerced.  (A non-envelope dict never reaches this function —
responses here are arrays of records — and pandas scalar-dict construction
raises; arrays of non-records likewise do not occur and are mapped to the
constructor-failure branch.) -/
def make_df (data : JVal) (numeric time : Option (List String)) :
    Except PError DfResult :=
  match data with
  | .obj fields =>
      if (fields.map Prod.fst).contains "statusCode" then .ok (.raw (.obj fields))
      else .error (.valueError "DataFrame constructor not properly called")
  | .arr recs =>
      match recsAsObjs recs with
      | some rs => (process_panda (dfOfRecords rs) numeric time).map .table
      | none => .error (.typeError "DataFrame rows must be records")
  | _ => .error (.valueError "DataFrame constructor not properly called")

/-- A Series: an insertion-ordered label-to-cell mapping. -/
def SeriesT := List (String × Cell)

/-- `pd.Series(dict)`. -/
def seriesOfObj (fields : List (String × JVal)) : SeriesT :=
  fields.map (fun kv => (kv.1, cellOfJVal kv.2))

/-- `series[labels]`: selection by label list, `KeyError` on a missing
label. -/
def selectS (s : SeriesT) (ns : List String) : Except PError (List Cell) :=
  if ns.all (fun n => (s.map Prod.fst).contains n) then
    .ok (ns.map (fun n => (alookup n s).getD .nan))
  else
    .error (.keyError (ns.filter (fun n => !(s.map Prod.fst).contains n)))

/-- `series[labels] = converted`. -/
def setS (s : SeriesT) (ns : List String) (newVals : List Cell) : SeriesT :=
  let assoc := ns.zip newVals
  s.map (fun c =>
    match alookup c.1 assoc with
    | some v => (c.1, v)
    | none => c)

/-- One coercion pass of `process_panda` instantiated at a Series
(`Series.apply` maps the conversion over each selected element). -/
def applyConvS (s : SeriesT) (ns : Option (List String))
    (conv : Cell → Except PError Cell) : Except PError SeriesT :=
  match ns with
  | none => .ok s
  | some ns => do
      let vals ← selectS s ns
      let newVals ← mapME conv vals
      pure (setS s ns newVals)

/-- `process_panda` (client.py lines 38-44) instantiated at a Series; the
source function is duck-typed over both containers. -/
def process_series (s : SeriesT) (numeric time : Option (List String)) :
    Except PError SeriesT := do
  let s ← applyConvS s numeric to_numeric_cell
  applyConvS s time to_datetime_cell

/-- Result of `make_series`: the raw value passed through, or a typed
record. -/
inductive SeriesResult where
  | raw (v : JVal)
  | series (s : SeriesT)

/-- `make_series` (client.py lines 74-98): a dict carrying the
`statusCode` error marker is returned unmodified; other dicts become a
Series and are coerced.  (Non-dict input never occurs at its call sites.) -/
def make_series (data : JVal) (numeric time : Option (List String)) :
    Except PError SeriesResult :=
  match data with
  | .obj fields =>
      if (fields.map Prod.fst).contains "statusCode" then .ok (.raw (.obj fields))
      else (process_series (seriesOfObj fields) numeric time).map .series
  | _ => .error (.valueError "Series constructor input not modelled")

/-- Python `float(x)` on an unpacked order-book entry component. -/
def floatOfJVal : JVal → Option ℚ
  | .str s => parseFloatQ s
  | .int n => some (n : ℚ)
  | .float q => some q
  | .bool b => some (if b then 1 else 0)
  | _ => none

/-- One `[price, amount]` entry of an order-book side:
`[float(price), float(amount)]`; `none` when unpacking or `float` would
raise. -/
def convEntry : JVal → Option JVal
  | .arr [p, a] => do
      let pq ← floatOfJVal p
      let aq ← floatOfJVal a
      pure (.arr [.float pq, .float aq])
  | _ => none

/-- Dict assignment `ob[k] = v` (the key is already present when this model
uses it). -/
def setKey (ob : List (String × JVal)) (k : String) (v : JVal) :
    List (String × JVal) :=
  ob.map (fun kv => if kv.1 = k then (kv.1, v) else kv)

/-- One iteration of the `process_orderbook` loop for one side: skip when
the key is absent, otherwise convert every entry and store the result. -/
def processSide (ob : List (String × JVal)) (side : String) :
    Except PError (List (String × JVal)) :=
  match alookup side ob with
  | none => .ok ob
  | some (.arr entries) =>
      match mapMO convEntry entries with
      | some entries2 => .ok (setKey ob side (.arr entries2))
      | none => .error (.valueError "could not convert order-book entry to float")
  | some _ => .error (.typeError "order-book side is not a sequence of pairs")

/-- `process_orderbook` (client.py lines 100-127), value level: `bids`
first, then `asks`, exactly the loop order of the source. -/
def process_orderbook (ob : List (String × JVal)) :
    Except PError (List (String × JVal)) := do
  let ob ← processSide ob "bids"
  processSide ob "asks"

/-- `process_orderbook` with the post-call state of the caller's argument
made explicit: the source assigns into the dict it received (line 124) and
returns that same dict (line 127), so on success the argument's final
state and the returned value are one and the same converted book. -/
def process_orderbook_st (ob : List (String × JVal)) :
    Except PError ((List (String × JVal)) × (List (String × JVal))) :=
  (process_orderbook ob).map (fun r => (r, r))

/-- `make_df` with the post-call state of the caller's argument made
explicit: `pd.DataFrame(data)` copies the records it reads, so
`process_panda` mutates only the fresh frame and `data` is unchanged. -/
def make_df_st (data : JVal) (numeric time : Option (List String)) :
    JVal × Except PError DfResult :=
  (data, make_df data numeric time)

/-- `make_series` with the post-call state of the caller's argument made
explicit: `pd.Series(data)` copies, so `data` is unchanged. -/
def make_series_st (data : JVal) (numeric time : Option (List String)) :
    JVal × Except PError SeriesResult :=
  (data, make_series data numeric time)

/-- Projection used to state path claims about a client-method outcome. -/
def outcomeSignedPath : CallOutcome → Option String
  | .request c => some c.signedPath
  | _ => none

/-- Decidable well-formedness of one order-book side: absent, or a
sequence of entries that all convert (pairs whose components `float`
accepts). -/
def sideOkB (ob : List (String × JVal)) (side : String) : Bool :=
  match alookup side ob with
  | none => true
  | some (.arr entries) => entries.all (fun e => (convEntry e).isSome)
  | some _ => false

/-- The order-book payload from the specification's worked example. -/
def specOrderbook : List (String × JVal) :=
  [("marketId", .str "BAT-AUD"), ("snapshotId", .int 1),
   ("asks", .arr [.arr [.str "0.2677", .str "5665.85"]]),
   ("bids", .arr [.arr [.str "0.2612", .str "17847.84"]])]

/-- A one-sided order book used to exhibit in-place mutation. -/
def mutBook : List (String × JVal) :=
  [("bids", .arr [.arr [.str "0.2612", .str "17847.84"]])]

/-- The post-call state of `mutBook` after `process_orderbook` runs on it. -/
def mutBookAfter : List (String × JVal) :=
  ((process_orderbook_st mutBook).toOption.map Prod.fst).getD []

/-- Whether every entry of the `bids` side is still a pair of strings (the
wire form, before float coercion). -/
def bidsAllStringPairs (ob : List (String × JVal)) : Bool :=
  match alookup "bids" ob with
  | some (.arr entries) =>
      entries.all (fun e =>
        match e with
        | .arr [.str _, .str _] => true
        | _ => false)
  | _ => false

end BTCM


namespace BTCM

/-- Claim C1: for every method, path, optional body string and private
key (and clock reading), `buildHeaders` emits under `BM-AUTH-SIGNATURE`
exactly the base64 encoding of the HMAC-SHA512 digest, keyed by the raw
private-key bytes, of the UTF-8 encoding of the canonical message
`method ++ path ++ timestamp ++ body-when-present`. -/
theorem buildHeaders_signature_is_b64_hmac_of_canonical
    (method apiKey path : String) (privateKey : List Nat)
    (data : Option String) (now : Nat) :
    alookup "BM-AUTH-SIGNATURE" (buildHeaders method apiKey privateKey path data now)
      = some (base64Encode (hmacSha512 privateKey
          (utf8Encode (method ++ path ++ toString now ++ data.getD "")))) := by
  cases data with
  | none =>
      simp only [buildHeaders, signMessage, Option.getD, String.append_empty]
      rfl
  | some d => rfl

/-- Claim C3: within one `buildHeaders` call the timestamp string placed
in the signed canonical message is the very value emitted under
`BM-AUTH-TIMESTAMP`; both are the one rendering of the clock reading. -/
theorem buildHeaders_timestamp_consistent
    (method apiKey path : String) (privateKey : List Nat)
    (data : Option String) (now : Nat) :
    alookup "BM-AUTH-TIMESTAMP" (buildHeaders method apiKey privateKey path data now)
      = some (toString now)
    ∧ alookup "BM-AUTH-SIGNATURE" (buildHeaders method apiKey privateKey path data now)
      = some (signMessage privateKey
          (method ++ path ++ toString now ++ data.getD "")) := by
  refine ⟨?_, ?_⟩ <;> cases data with
  | none =>
      simp only [buildHeaders, Option.getD, String.append_empty]
      rfl
  | some d => rfl

/-- Claim C2, counterexample: `tickers` concatenates its marketId query
string into the path *before* calling `makeHttpCall`, so the path used to
build the signed canonical message carries the query string — it is not
the bare path. -/
theorem tickers_signs_query_string :
    outcomeSignedPath (tickers true "k" [] 0 ["BTC-AUD"])
      = some "/v3/markets/tickers?marketId=BTC-AUD"
    ∧ ('?') ∈ "/v3/markets/tickers?marketId=BTC-AUD".toList := by
  exact ⟨rfl, by decide⟩

/-- Claim C2, amended: requests routed through `makeHttpCall`'s
`query_params` argument sign the bare `path` (the query string is appended
only after header construction), but `tickers` and `orderbooks` build
their repeated-marketId query string into the path itself, so those two
endpoints sign a query-bearing path. -/
theorem makeHttpCall_signs_bare_path :
    (∀ (apiKey : String) (pk : List Nat) (now : Nat) (method path : String)
       (qp : Option (List (String × String))) (data : Option JVal),
        (makeHttpCall apiKey pk now method path qp data).signedPath = path)
    ∧ (∀ (eoe : Bool) (apiKey : String) (pk : List Nat) (now : Nat)
         (ids : List String), ids ≠ [] →
        outcomeSignedPath (tickers eoe apiKey pk now ids) = some (tickersPath ids))
    ∧ (∀ (apiKey : String) (pk : List Nat) (now : Nat) (ids : List String),
        (orderbooks_request apiKey pk now ids).signedPath = orderbooksPath ids) := by
  refine ⟨fun _ _ _ _ _ _ _ => rfl, fun eoe apiKey pk now ids hne => ?_, fun _ _ _ _ => rfl⟩
  cases ids with
  | nil => exact absurd rfl hne
  | cons a t => rfl

/-- Claim C2, amended, witness at concrete inputs. -/
theorem makeHttpCall_signs_bare_path_witness :
    ((["ETH-AUD"] : List String) ≠ [])
    ∧ (outcomeSignedPath (tickers true "k" [] 7 ["ETH-AUD"])
        = some (tickersPath ["ETH-AUD"])) := by
  refine ⟨by decide, makeHttpCall_signs_bare_path.2.1 true "k" [] 7 ["ETH-AUD"] (by decide)⟩

/-- Claim C4: for POST/PUT calls with a body, the body string appended to
the canonical message before signing (`jsonDumps` of the value
`makeHttpCall` was given — when the caller pre-serialized, that is the
dump of the pre-serialized string) is the same string whose UTF-8 bytes
are transmitted as the HTTP request body. -/
theorem sent_body_equals_signed_body
    (apiKey : String) (pk : List Nat) (now : Nat) (method path : String)
    (qp : Option (List (String × String))) (j : JVal)
    (hm : method = "POST" ∨ method = "PUT") :
    (makeHttpCall apiKey pk now method path qp (some j)).sentBody
      = some (utf8Encode (jsonDumps j))
    ∧ alookup "BM-AUTH-SIGNATURE"
        (makeHttpCall apiKey pk now method path qp (some j)).headers
      = some (signMessage pk (method ++ path ++ toString now ++ jsonDumps j)) := by
  rcases hm with rfl | rfl <;> exact ⟨rfl, rfl⟩

/-- Claim C4, witness at a concrete pre-serialized body. -/
theorem sent_body_equals_signed_body_witness :
    (("POST" : String) = "POST" ∨ ("POST" : String) = "PUT")
    ∧ ((makeHttpCall "k" [] 3 "POST" "/v3/orders" none
          (some (.str "\x7b\x22price\x22: \x221000\x22\x7d"))).sentBody
        = some (utf8Encode (jsonDumps (.str "\x7b\x22price\x22: \x221000\x22\x7d")))
      ∧ alookup "BM-AUTH-SIGNATURE"
          (makeHttpCall "k" [] 3 "POST" "/v3/orders" none
          (some (.str "\x7b\x22price\x22: \x221000\x22\x7d"))).headers
        = some (signMessage [] ("POST" ++ "/v3/orders" ++ toString 3
            ++ jsonDumps (.str "\x7b\x22price\x22: \x221000\x22\x7d")))) :=
  ⟨Or.inl rfl,
   sent_body_equals_signed_body "k" [] 3 "POST" "/v3/orders" none
     (.str "\x7b\x22price\x22: \x221000\x22\x7d") (Or.inl rfl)⟩

/-- Claim C9, code bug: `handle_error` (client.py line 174) overwrites its
`msg` parameter with the fixed string before using it, so a
`place_order` validation failure under the raise-on-error policy raises
`No market_ids provided` instead of the failure-site message
`Stop requires triggerPrice` that the source computes and its docstring
promises to carry. -/
theorem place_order_validation_message_clobbered :
    place_order true "k" [] 0 "BTC-AUD" "1000" "0.1" "Bid" "Stop"
        none none "GTC" false "P" none
      = CallOutcome.raised "No market_ids provided"
    ∧ ("No market_ids provided" : String) ≠ "Stop requires triggerPrice" :=
  ⟨rfl, by decide⟩

/-- Claim C5: an associative input carrying the `statusCode` error marker
is returned unmodified by `make_df` and `make_series`, whatever numeric
and temporal field lists are declared — no coercion, no error. -/
theorem error_envelope_passes_through
    (fields : List (String × JVal)) (numeric time : Option (List String))
    (h : (fields.map Prod.fst).contains "statusCode" = true) :
    make_df (.obj fields) numeric time = .ok (.raw (.obj fields))
    ∧ make_series (.obj fields) numeric time = .ok (.raw (.obj fields)) := by
  constructor
  · simp only [make_df]
    split
    · rfl
    · next hc => exact absurd h hc
  · simp only [make_series]
    split
    · rfl
    · next hc => exact absurd h hc

/-- Claim C5, witness: the spec's rate-limit envelope, with the declared
field lists naming the envelope's own fields. -/
theorem error_envelope_passes_through_witness :
    (([("statusCode", JVal.int 429), ("message", JVal.str "rate limited")].map
        Prod.fst).contains "statusCode" = true)
    ∧ (make_df (.obj [("statusCode", .int 429), ("message", .str "rate limited")])
          (some ["statusCode", "message"]) (some ["message"])
        = .ok (.raw (.obj [("statusCode", .int 429), ("message", .str "rate limited")]))
      ∧ make_series (.obj [("statusCode", .int 429), ("message", .str "rate limited")])
          (some ["statusCode", "message"]) (some ["message"])
        = .ok (.raw (.obj [("statusCode", .int 429), ("message", .str "rate limited")]))) :=
  ⟨rfl,
   error_envelope_passes_through
     [("statusCode", .int 429), ("message", .str "rate limited")]
     (some ["statusCode", "message"]) (some ["message"]) rfl⟩

/-- Claim C10, counterexample: `process_orderbook` does not leave its
argument unchanged — the dict it received ends the call with its `bids`
entries converted in place (no longer the string pairs it held), and the
returned value is that same mutated dict, not independent data. -/
theorem process_orderbook_mutates_argument :
    process_orderbook_st mutBook = .ok (mutBookAfter, mutBookAfter)
    ∧ bidsAllStringPairs mutBook = true
    ∧ bidsAllStringPairs mutBookAfter = false :=
  ⟨rfl, rfl, rfl⟩

/-- Claim C10, amended: `make_df` and `make_series` leave the argument
they receive unchanged (the container constructor copies), while
`process_orderbook` converts the `bids`/`asks` lists of the dict it
receives in place and returns that same dict — so its result always
coincides with the argument's post-call state. -/
theorem normalization_mutation_profile :
    (∀ (data : JVal) (numeric time : Option (List String)),
        (make_df_st data numeric time).1 = data)
    ∧ (∀ (data : JVal) (numeric time : Option (List String)),
        (make_series_st data numeric time).1 = data)
    ∧ (∀ ob, (process_orderbook_st ob).map Prod.fst
        = (process_orderbook_st ob).map Prod.snd) := by
  refine ⟨fun _ _ _ => rfl, fun _ _ _ => rfl, fun ob => ?_⟩
  unfold process_orderbook_st
  cases process_orderbook ob <;> rfl

end BTCM

namespace BTCM

/-- Looking a key up in a keyed map of itself. -/
theorem alookup_map_pair {β : Type} (g : String → β) (names : List String)
    (f : String) (hf : f ∈ names) :
    alookup f (names.map (fun n => (n, g n))) = some (g f) := by
  induction names with
  | nil => cases hf
  | cons n rest ih =>
      by_cases hfn : f = n
      · subst hfn
        simp [alookup]
      · have hf' : f ∈ rest := by
          cases hf with
          | head => exact absurd rfl hfn
          | tail _ h => exact h
        simpa [alookup, hfn] using ih hf'

/-- An option-valued traversal with no failing element is the plain map. -/
theorem mapMO_eq_map {α β : Type} (fn : α → Option β) (l : List α) (dflt : β)
    (h : ∀ a ∈ l, (fn a).isSome = true) :
    mapMO fn l = some (l.map (fun a => (fn a).getD dflt)) := by
  induction l with
  | nil => rfl
  | cons x xs ih =>
      rcases Option.isSome_iff_exists.mp (h x (List.mem_cons_self x xs)) with ⟨y, hy⟩
      have ih' := ih (fun a ha => h a (List.mem_cons_of_mem x ha))
      simp [mapMO, hy, ih', Option.getD]

/-- A single failing element makes the whole `Except`-valued traversal
fail. -/
theorem mapME_error_of_mem {α β : Type} (fn : α → Except PError β) (l : List α)
    (a : α) (ha : a ∈ l) (hf : exceptIsError (fn a) = true) :
    ∃ e, mapME fn l = Except.error e := by
  induction l with
  | nil => cases ha
  | cons x xs ih =>
      cases hfx : fn x with
      | error e =>
          exact ⟨e, by simp [mapME, hfx, Bind.bind, Except.bind]⟩
      | ok b =>
          have ha' : a ∈ xs := by
            cases ha with
            | head => rw [hfx] at hf; simp [exceptIsError] at hf
            | tail _ h => exact h
          rcases ih ha' with ⟨e, he⟩
          exact ⟨e, by simp [mapME, hfx, he, Bind.bind, Except.bind]⟩

/-- Writing a present key and reading it back. -/
theorem alookup_setKey_self (ob : List (String × JVal)) (k : String) (v : JVal)
    (h : (alookup k ob).isSome = true) :
    alookup k (setKey ob k v) = some v := by
  induction ob with
  | nil => simp [alookup] at h
  | cons kv rest ih =>
      by_cases hk : k = kv.1
      · simp [setKey, alookup, hk]
      · have hk2 : ¬ kv.1 = k := fun he => hk he.symm
        have h' : (alookup k rest).isSome = true := by
          simpa [alookup, hk] using h
        simpa [setKey, alookup, hk, hk2] using ih h'

/-- Writing one key leaves the others readable as before. -/
theorem alookup_setKey_ne (ob : List (String × JVal)) (k k2 : String) (v : JVal)
    (h : k2 ≠ k) :
    alookup k2 (setKey ob k v) = alookup k2 ob := by
  induction ob with
  | nil => rfl
  | cons kv rest ih =>
      by_cases hk : kv.1 = k
      · have hne : ¬ k2 = kv.1 := fun he => h (he.trans hk)
        show alookup k2 ((if kv.1 = k then (kv.1, v) else kv) :: setKey rest k v) = _
        rw [if_pos hk]
        show (if k2 = kv.1 then some v else alookup k2 (setKey rest k v)) = _
        rw [if_neg hne, ih]
        show _ = (if k2 = kv.1 then some kv.2 else alookup k2 rest)
        rw [if_neg hne]
      · show alookup k2 ((if kv.1 = k then (kv.1, v) else kv) :: setKey rest k v) = _
        rw [if_neg hk]
        show (if k2 = kv.1 then some kv.2 else alookup k2 (setKey rest k v)) = _
        rw [ih]
        rfl

end BTCM

namespace BTCM

/-- What one loop iteration of `process_orderbook` guarantees when the
side is well-formed: success, the side's entries converted (or the side
still absent), and every other key untouched. -/
theorem processSide_spec (ob : List (String × JVal)) (side : String)
    (h : sideOkB ob side = true) :
    ∃ ob2, processSide ob side = .ok ob2
      ∧ (∀ entries, alookup side ob = some (.arr entries) →
          alookup side ob2
            = some (.arr (entries.map (fun e => (convEntry e).getD .null))))
      ∧ (alookup side ob = none → alookup side ob2 = none)
      ∧ (∀ k, k ≠ side → alookup k ob2 = alookup k ob) := by
  cases hl : alookup side ob with
  | none =>
      refine ⟨ob, ?_, ?_, ?_, ?_⟩
      · unfold processSide
        rw [hl]
      · intro entries he
        exact Option.noConfusion he
      · intro _
        exact hl
      · intro k _
        rfl
  | some v =>
      unfold sideOkB at h
      rw [hl] at h
      cases v with
      | arr entries =>
          have hall : ∀ e ∈ entries, (convEntry e).isSome = true :=
            List.all_eq_true.mp h
          have hmap := mapMO_eq_map convEntry entries JVal.null hall
          refine ⟨setKey ob side
              (.arr (entries.map (fun e => (convEntry e).getD .null))), ?_, ?_, ?_, ?_⟩
          · unfold processSide
            rw [hl]
            show (match mapMO convEntry entries with
                  | some entries2 => Except.ok (setKey ob side (JVal.arr entries2))
                  | none => Except.error
                      (PError.valueError "could not convert order-book entry to float"))
                = _
            rw [hmap]
          · intro entries0 he0
            injection he0 with he1
            injection he1 with he2
            subst he2
            exact alookup_setKey_self ob side _ (by rw [hl]; rfl)
          · intro hnone
            exact Option.noConfusion hnone
          · intro k hk
            exact alookup_setKey_ne ob side k _ hk
      | str s => exact Bool.noConfusion h
      | int n => exact Bool.noConfusion h
      | float q => exact Bool.noConfusion h
      | bool b => exact Bool.noConfusion h
      | null => exact Bool.noConfusion h
      | obj fs => exact Bool.noConfusion h

/-- Claim C6: on an order-book payload whose `bids` and `asks` sides (when
present) are sequences of convertible `[price, amount]` string pairs,
`process_orderbook` succeeds, converts each pair to the pair of its parsed
floating-point values (`convEntry` is `[float(price), float(amount)]`),
converts a side only when it is present, and maps every other key —
`marketId` and `snapshotId` included — to its original value. -/
theorem process_orderbook_converts (ob : List (String × JVal))
    (hb : sideOkB ob "bids" = true) (ha : sideOkB ob "asks" = true) :
    ∃ ob2, process_orderbook ob = .ok ob2
      ∧ (∀ entries, alookup "bids" ob = some (.arr entries) →
          alookup "bids" ob2
            = some (.arr (entries.map (fun e => (convEntry e).getD .null))))
      ∧ (∀ entries, alookup "asks" ob = some (.arr entries) →
          alookup "asks" ob2
            = some (.arr (entries.map (fun e => (convEntry e).getD .null))))
      ∧ (alookup "bids" ob = none → alookup "bids" ob2 = none)
      ∧ (alookup "asks" ob = none → alookup "asks" ob2 = none)
      ∧ (∀ k, k ≠ "bids" → k ≠ "asks" → alookup k ob2 = alookup k ob) := by
  rcases processSide_spec ob "bids" hb with ⟨ob1, h1, h1b, h1n, h1k⟩
  have ha1 : sideOkB ob1 "asks" = true := by
    unfold sideOkB
    rw [h1k "asks" (by decide)]
    unfold sideOkB at ha
    exact ha
  rcases processSide_spec ob1 "asks" ha1 with ⟨ob2, h2, h2a, h2n, h2k⟩
  refine ⟨ob2, ?_, ?_, ?_, ?_, ?_, ?_⟩
  · unfold process_orderbook
    rw [h1]
    simpa [Bind.bind, Except.bind] using h2
  · intro entries he
    rw [h2k "bids" (by decide)]
    exact h1b entries he
  · intro entries he
    refine h2a entries ?_
    rw [h1k "asks" (by decide)]
    exact he
  · intro hn
    rw [h2k "bids" (by decide)]
    exact h1n hn
  · intro hn
    refine h2n ?_
    rw [h1k "asks" (by decide)]
    exact hn
  · intro k hk1 hk2
    rw [h2k k hk2, h1k k hk1]

/-- Claim C6, witness: the specification's worked example payload. -/
theorem process_orderbook_converts_witness :
    (sideOkB specOrderbook "bids" = true ∧ sideOkB specOrderbook "asks" = true)
    ∧ (∃ ob2, process_orderbook specOrderbook = .ok ob2
      ∧ (∀ entries, alookup "bids" specOrderbook = some (.arr entries) →
          alookup "bids" ob2
            = some (.arr (entries.map (fun e => (convEntry e).getD .null))))
      ∧ (∀ entries, alookup "asks" specOrderbook = some (.arr entries) →
          alookup "asks" ob2
            = some (.arr (entries.map (fun e => (convEntry e).getD .null))))
      ∧ (alookup "bids" specOrderbook = none → alookup "bids" ob2 = none)
      ∧ (alookup "asks" specOrderbook = none → alookup "asks" ob2 = none)
      ∧ (∀ k, k ≠ "bids" → k ≠ "asks" →
          alookup k ob2 = alookup k specOrderbook)) :=
  ⟨⟨rfl, rfl⟩, process_orderbook_converts specOrderbook rfl rfl⟩

end BTCM

namespace BTCM

/-- Membership is preserved by first-occurrence deduplication. -/
theorem mem_firstDedup (l : List String) (a : String) :
    a ∈ firstDedup l ↔ a ∈ l := by
  induction l with
  | nil => simp [firstDedup]
  | cons x xs ih =>
      unfold firstDedup
      simp only [List.mem_cons]
      constructor
      · rintro (rfl | h)
        · exact Or.inl rfl
        · exact Or.inr (ih.mp (List.mem_filter.mp h).1)
      · rintro (rfl | h)
        · exact Or.inl rfl
        · by_cases hax : a = x
          · exact Or.inl hax
          · exact Or.inr (List.mem_filter.mpr ⟨ih.mpr h, by simp [hax]⟩)

/-- A successful lookup means the key is among the record's keys. -/
theorem mem_keys_of_alookup (r : List (String × JVal)) (f : String) (v : JVal)
    (h : alookup f r = some v) : f ∈ r.map Prod.fst := by
  induction r with
  | nil => cases h
  | cons kv rest ih =>
      by_cases hf : f = kv.1
      · simp [hf]
      · have h' : alookup f rest = some v := by simpa [alookup, hf] using h
        exact List.mem_cons_of_mem _ (ih h')

/-- A list of objects re-reads as exactly its record list. -/
theorem recsAsObjs_map_obj (recs : List (List (String × JVal))) :
    recsAsObjs (recs.map JVal.obj) = some recs := by
  induction recs with
  | nil => rfl
  | cons r rest ih =>
      unfold recsAsObjs at ih ⊢
      simp only [List.map_cons, mapMO]
      rw [ih]
      rfl

/-- The frame built from records has the key union as its column names. -/
theorem dfColNames_dfOfRecords (recs : List (List (String × JVal))) :
    dfColNames (dfOfRecords recs) = keyUnion recs := by
  unfold dfColNames dfOfRecords
  rw [List.map_map]
  exact List.map_id' (keyUnion recs)

/-- Column lookup on the built frame. -/
theorem alookup_dfOfRecords (recs : List (List (String × JVal))) (f : String)
    (hf : f ∈ keyUnion recs) :
    alookup f (dfOfRecords recs) = some (colOf recs f) :=
  alookup_map_pair (colOf recs) (keyUnion recs) f hf

/-- The cell a record contributes sits in its key's column. -/
theorem cell_mem_colOf (recs : List (List (String × JVal)))
    (r : List (String × JVal)) (f : String) (v : JVal)
    (hr : r ∈ recs) (hlk : alookup f r = some v) :
    cellOfJVal v ∈ colOf recs f := by
  unfold colOf
  have hv : (match alookup f r with
      | some v => cellOfJVal v
      | none => Cell.nan) = cellOfJVal v := by rw [hlk]
  exact hv ▸ List.mem_map_of_mem _ hr

/-- Replacing columns does not change the column-name list. -/
theorem dfColNames_setCols (df : DF) (ns : List String) (cs : List (List Cell)) :
    dfColNames (setCols df ns cs) = dfColNames df := by
  unfold dfColNames setCols
  rw [List.map_map]
  refine List.map_congr_left (fun c _ => ?_)
  simp only [Function.comp_apply]
  cases alookup c.1 (ns.zip cs) <;> rfl

/-- Keys outside the zip's key list look up to nothing. -/
theorem alookup_zip_not_mem {α : Type} (ns : List String) (cs : List α)
    (k : String) (h : k ∉ ns) : alookup k (ns.zip cs) = none := by
  induction ns generalizing cs with
  | nil => rfl
  | cons n rest ih =>
      cases cs with
      | nil => rfl
      | cons c cst =>
          have hk : ¬ k = n := fun he => h (he ▸ List.mem_cons_self n rest)
          have h' : k ∉ rest := fun hm => h (List.mem_cons_of_mem n hm)
          simpa [alookup, hk] using ih cst h'

/-- Replacing some columns leaves the lookup of other columns unchanged. -/
theorem alookup_setCols_not_mem (df : DF) (ns : List String)
    (cs : List (List Cell)) (f : String) (h : f ∉ ns) :
    alookup f (setCols df ns cs) = alookup f df := by
  induction df with
  | nil => rfl
  | cons c rest ih =>
      show alookup f ((match alookup c.1 (ns.zip cs) with
            | some col => (c.1, col)
            | none => c) :: setCols rest ns cs) = _
      by_cases hf : f = c.1
      · have hz : alookup c.1 (ns.zip cs) = none :=
          alookup_zip_not_mem ns cs c.1 (hf ▸ h)
        rw [hz]
        simp [alookup, hf]
      · cases hz : alookup c.1 (ns.zip cs) with
        | some col =>
            show (if f = c.1 then some col else alookup f (setCols rest ns cs)) = _
            rw [if_neg hf, ih]
            show _ = (if f = c.1 then some c.2 else alookup f rest)
            rw [if_neg hf]
        | none =>
            show (if f = c.1 then some c.2 else alookup f (setCols rest ns cs)) = _
            rw [if_neg hf, ih]
            show _ = (if f = c.1 then some c.2 else alookup f rest)
            rw [if_neg hf]

/-- If some listed column holds a cell the conversion rejects, the whole
coercion pass raises (either a `KeyError` from selection or the
conversion's own error). -/
theorem applyConv_some_error (df : DF) (ns : List String)
    (conv : Cell → Except PError Cell) (f : String) (c : Cell)
    (hf : f ∈ ns) (hc : c ∈ (alookup f df).getD [])
    (hbad : exceptIsError (conv c) = true) :
    ∃ e, applyConv df (some ns) conv = .error e := by
  by_cases hcond : (ns.all (fun n => (dfColNames df).contains n)) = true
  · have hsel : selectCols df ns = .ok (ns.map (fun n => (alookup n df).getD [])) := by
      unfold selectCols
      rw [if_pos hcond]
    rcases mapME_error_of_mem conv ((alookup f df).getD []) c hc hbad with ⟨e1, he1⟩
    have hmem : ((alookup f df).getD []) ∈ ns.map (fun n => (alookup n df).getD []) :=
      List.mem_map_of_mem _ hf
    have hbad2 : exceptIsError (convertCol conv ((alookup f df).getD [])) = true := by
      unfold convertCol
      rw [he1]
      rfl
    rcases mapME_error_of_mem (convertCol conv) _ _ hmem hbad2 with ⟨e2, he2⟩
    refine ⟨e2, ?_⟩
    show (do
        let cols ← selectCols df ns
        let newCols ← mapME (convertCol conv) cols
        pure (setCols df ns newCols) : Except PError DF) = _
    rw [hsel]
    show (mapME (convertCol conv) (ns.map (fun n => (alookup n df).getD []))).bind _
        = _
    rw [he2]
    rfl
  · refine ⟨.keyError (ns.filter (fun n => !(dfColNames df).contains n)), ?_⟩
    have hsel : selectCols df ns
        = .error (.keyError (ns.filter (fun n => !(dfColNames df).contains n))) := by
      unfold selectCols
      rw [if_neg hcond]
    show (do
        let cols ← selectCols df ns
        let newCols ← mapME (convertCol conv) cols
        pure (setCols df ns newCols) : Except PError DF) = _
    rw [hsel]
    rfl

/-- A successful coercion pass keeps the column names and the unlisted
columns. -/
theorem applyConv_ok_preserves (df : DF) (ns : List String)
    (conv : Cell → Except PError Cell) (df2 : DF)
    (h : applyConv df (some ns) conv = .ok df2) :
    dfColNames df2 = dfColNames df
    ∧ ∀ f, f ∉ ns → alookup f df2 = alookup f df := by
  have h' : (do
      let cols ← selectCols df ns
      let newCols ← mapME (convertCol conv) cols
      pure (setCols df ns newCols) : Except PError DF) = .ok df2 := h
  clear h
  cases hsel : selectCols df ns with
  | error e =>
      rw [hsel] at h'
      exact Except.noConfusion h'
  | ok cols =>
      rw [hsel] at h'
      have h'' : (do
          let newCols ← mapME (convertCol conv) cols
          pure (setCols df ns newCols) : Except PError DF) = .ok df2 := h'
      clear h'
      cases hmap : mapME (convertCol conv) cols with
      | error e =>
          rw [hmap] at h''
          exact Except.noConfusion h''
      | ok newCols =>
          rw [hmap] at h''
          have h2 : setCols df ns newCols = df2 := Except.ok.inj h''
          subst h2
          exact ⟨dfColNames_setCols df ns newCols,
                 fun f hf => alookup_setCols_not_mem df ns newCols f hf⟩

end BTCM

namespace BTCM

/-- Claim C7, amended: on a non-envelope record list, when some record
holds a field declared numeric whose value the numeric parse rejects — or
a field declared temporal but not numeric whose value the timestamp parse
rejects — `make_df` raises: its result is an error, never a table holding
a null, zero or otherwise defaulted value for that field.  (The
not-also-numeric proviso is forced by the coercion order: the numeric pass
runs first, and a numerically-parseable value reaches the temporal pass
as a number, which the datetime coercion accepts as an epoch offset.) -/
theorem make_df_bad_typed_field_raises
    (recs : List (List (String × JVal))) (numeric time : Option (List String))
    (f : String) (v : JVal) (r : List (String × JVal))
    (hr : r ∈ recs) (hlk : alookup f r = some v)
    (hbad : (f ∈ numeric.getD [] ∧ exceptIsError (to_numeric_cell (cellOfJVal v)) = true)
          ∨ (f ∉ numeric.getD [] ∧ f ∈ time.getD []
              ∧ exceptIsError (to_datetime_cell (cellOfJVal v)) = true)) :
    ∃ e, make_df (.arr (recs.map JVal.obj)) numeric time = .error e := by
  have hfk : f ∈ keyUnion recs := by
    unfold keyUnion
    rw [mem_firstDedup]
    exact List.mem_flatMap.mpr ⟨r, hr, mem_keys_of_alookup r f v hlk⟩
  have hcol0 : cellOfJVal v ∈ (alookup f (dfOfRecords recs)).getD [] := by
    rw [alookup_dfOfRecords recs f hfk]
    exact cell_mem_colOf recs r f v hr hlk
  have hcore : ∃ e, process_panda (dfOfRecords recs) numeric time = .error e := by
    rcases hbad with ⟨hfn, hbadn⟩ | ⟨hfnot, hft, hbadt⟩
    · cases numeric with
      | none => simp at hfn
      | some ns =>
          have hfn' : f ∈ ns := hfn
          rcases applyConv_some_error (dfOfRecords recs) ns to_numeric_cell f
              (cellOfJVal v) hfn' hcol0 hbadn with ⟨e, he⟩
          refine ⟨e, ?_⟩
          show (applyConv (dfOfRecords recs) (some ns) to_numeric_cell).bind _ = _
          rw [he]
          rfl
    · cases time with
      | none => simp at hft
      | some ts =>
          have hft' : f ∈ ts := hft
          cases happ : applyConv (dfOfRecords recs) numeric to_numeric_cell with
          | error e =>
              refine ⟨e, ?_⟩
              show (applyConv (dfOfRecords recs) numeric to_numeric_cell).bind _ = _
              rw [happ]
              rfl
          | ok df1 =>
              have hpres : alookup f df1 = alookup f (dfOfRecords recs) := by
                cases numeric with
                | none =>
                    have h1 : dfOfRecords recs = df1 := Except.ok.inj happ
                    rw [h1]
                | some ns =>
                    exact (applyConv_ok_preserves _ ns _ df1 happ).2 f hfnot
              have hcol : cellOfJVal v ∈ (alookup f df1).getD [] := by
                rw [hpres]
                exact hcol0
              rcases applyConv_some_error df1 ts to_datetime_cell f (cellOfJVal v)
                  hft' hcol hbadt with ⟨e, he⟩
              refine ⟨e, ?_⟩
              show (applyConv (dfOfRecords recs) numeric to_numeric_cell).bind _ = _
              rw [happ]
              show applyConv df1 (some ts) to_datetime_cell = _
              rw [he]
  rcases hcore with ⟨e, he⟩
  refine ⟨e, ?_⟩
  have hred : make_df (.arr (recs.map JVal.obj)) numeric time
      = (process_panda (dfOfRecords recs) numeric time).map DfResult.table := by
    show (match recsAsObjs (recs.map JVal.obj) with
          | some rs => (process_panda (dfOfRecords rs) numeric time).map DfResult.table
          | none => Except.error (PError.typeError "DataFrame rows must be records"))
        = _
    rw [recsAsObjs_map_obj recs]
  rw [hred, he]
  rfl

/-- Claim C7, counterexample: a field declared in both the numeric and the
temporal lists, holding the string `12.5` — not parseable as a timestamp —
does not raise: the numeric pass turns it into a float first, and the
temporal pass accepts the float as an epoch offset, so normalization
returns a table. -/
theorem make_df_temporal_overlap_counterexample :
    (∃ df, make_df (.arr [JVal.obj [("x", JVal.str "12.5")]])
        (some ["x"]) (some ["x"]) = .ok (.table df))
    ∧ parseIso "12.5" = none :=
  ⟨⟨_, rfl⟩, rfl⟩

/-- Claim C7, witness: the spec's example of a numeric field holding the
non-numeric string `abc`. -/
theorem make_df_bad_typed_field_raises_witness :
    ([("price", JVal.str "abc")] ∈ [[("price", JVal.str "abc")]]
      ∧ alookup "price" [("price", JVal.str "abc")] = some (JVal.str "abc")
      ∧ (("price" ∈ (some ["price"] : Option (List String)).getD []
            ∧ exceptIsError (to_numeric_cell (cellOfJVal (JVal.str "abc"))) = true)
        ∨ ("price" ∉ (some ["price"] : Option (List String)).getD []
            ∧ "price" ∈ (none : Option (List String)).getD []
            ∧ exceptIsError (to_datetime_cell (cellOfJVal (JVal.str "abc"))) = true)))
    ∧ (∃ e, make_df (.arr ([[("price", JVal.str "abc")]].map JVal.obj))
        (some ["price"]) none = .error e) :=
  ⟨⟨List.mem_cons_self _ _, rfl, Or.inl ⟨List.mem_cons_self _ _, rfl⟩⟩,
   make_df_bad_typed_field_raises [[("price", JVal.str "abc")]] (some ["price"]) none
     "price" (JVal.str "abc") [("price", JVal.str "abc")]
     (List.mem_cons_self _ _) rfl (Or.inl ⟨List.mem_cons_self _ _, rfl⟩)⟩

/-- Claim C8, counterexample: `make_df` on the empty list with a non-empty
declared numeric field list does not return an empty table — the empty
frame has no columns, so the column selection raises a `KeyError`. -/
theorem make_df_empty_with_fields_raises :
    make_df (JVal.arr []) (some ["price"]) none
      = .error (.keyError ["price"]) := rfl

/-- Claim C8, amended: `make_df` applied to the empty list returns an
empty table without error when the declared numeric and temporal field
lists are empty or absent; any non-empty declared field list instead
raises a `KeyError`, because the empty frame has no columns to select. -/
theorem make_df_empty_list (numeric time : Option (List String))
    (hn : numeric.getD [] = []) (ht : time.getD [] = []) :
    make_df (JVal.arr []) numeric time = .ok (.table [])
    ∧ ∀ (n : String) (ns : List String) (time2 : Option (List String)),
        ∃ e, make_df (JVal.arr []) (some (n :: ns)) time2 = .error e := by
  constructor
  · cases numeric with
    | none =>
        cases time with
        | none => rfl
        | some ts =>
            have hts : ts = [] := by simpa using ht
            subst hts
            rfl
    | some ns =>
        have hns : ns = [] := by simpa using hn
        subst hns
        cases time with
        | none => rfl
        | some ts =>
            have hts : ts = [] := by simpa using ht
            subst hts
            rfl
  · intro n ns time2
    exact ⟨_, rfl⟩

/-- Claim C8, amended, witness: no declared fields. -/
theorem make_df_empty_list_witness :
    ((none : Option (List String)).getD [] = []
      ∧ (none : Option (List String)).getD [] = [])
    ∧ (make_df (JVal.arr []) none none = .ok (.table [])
      ∧ ∀ (n : String) (ns : List String) (time2 : Option (List String)),
          ∃ e, make_df (JVal.arr []) (some (n :: ns)) time2 = .error e) :=
  ⟨⟨rfl, rfl⟩, make_df_empty_list none none rfl rfl⟩

end BTCM
